import Mathlib

/-!
Shallow embedding of the Kompas homepage scraper
(src/scraping_data_website_kompas.py.py) in Lean 4.

The HTML documents handled by BeautifulSoup are modelled as a tree of
element and text nodes; the BeautifulSoup queries used by the program
(find, find_all, get_text(strip=True), attribute access) are modelled
over that tree in document (preorder) order, exactly as bs4 returns
them.  Network fetching (requests.get wrapped by get_soup) is modelled
as an Option-valued input: none models a fetch or parse failure, in
which case get_soup returns None; bs4 Tag objects define no custom
truthiness, so a successfully parsed document is always truthy and the
code path guarded by "if not soup" fires exactly on None.

Python sets of strings iterate in an order determined by randomized
string hashing, not insertion order.  The set "links" built by
collect_article_links_from_home is therefore modelled by its contents
in insertion order (collectSet below) together with an explicit
enumeration function setIter standing for the unspecified iteration
order; theorems quantify over enumerations that are permutations of
the contents, which is the sound semantics of iterating a Python set.
-/

namespace Kompas

/-- Document nodes: an element with a tag name, an attribute list and
children, or a text node.  This models the bs4 parse tree at the level
of detail the program inspects. -/
inductive Node where
| elem (tag : String) (attrs : List (String × String)) (children : List Node)
| text (s : String)

/-- Attribute lookup on an element, first binding wins; text nodes have
no attributes.  Models bs4 tag.get(name) / tag[name]. -/
def Node.attr : Node → String → Option String
| .elem _ attrs _, k => (attrs.find? (fun p => p.1 == k)).map (fun p => p.2)
| .text _, _ => none

/-- Test whether the second list is a prefix of the first. -/
def listStartsWith : List Char → List Char → Bool
| _, [] => true
| [], _ :: _ => false
| a :: as, b :: bs => a == b && listStartsWith as bs

/-- Fuel-driven splitter on a non-empty separator, scanning left to
right and consuming non-overlapping occurrences; the fuel is the
length of the scanned list, which bounds the number of steps, so the
fuel never runs out on the intended call. -/
def splitOnFuel (sep : List Char) : Nat → List Char → List Char → List (List Char)
| _, [], acc => [acc.reverse]
| 0, s, acc => [acc.reverse ++ s]
| fuel + 1, c :: rest, acc =>
  if listStartsWith (c :: rest) sep && !sep.isEmpty then
    acc.reverse :: splitOnFuel sep fuel (List.drop (sep.length - 1) rest) []
  else splitOnFuel sep fuel rest (c :: acc)

/-- Model of str.split(sep) for a non-empty separator (the only way
the program calls it): the pieces between non-overlapping occurrences
of the separator, empty pieces included. -/
def pySplit (s sep : String) : List String :=
  if sep.data.isEmpty then [s]
  else (splitOnFuel sep.data s.data.length s.data []).map String.mk

/-- Model of str.strip(): remove leading and trailing whitespace. -/
def pyStrip (s : String) : String :=
  String.mk (((s.data.dropWhile Char.isWhitespace).reverse.dropWhile
    Char.isWhitespace).reverse)

/-- Join a list of strings with a separator between elements. -/
def pyIntercalate (sep : String) : List String → String
| [] => ""
| [x] => x
| x :: y :: xs => x ++ sep ++ pyIntercalate sep (y :: xs)

/-- Prefix test on strings. -/
def pyStartsWith (s pre : String) : Bool :=
  listStartsWith s.data pre.data

mutual

/-- Descendants of a node in document (preorder) order, the order bs4
find_all traverses. -/
def Node.descendants : Node → List Node
| .text _ => []
| .elem _ _ cs => Node.descList cs

/-- Descendants of a forest of siblings, each node followed by its own
descendants, in document order. -/
def Node.descList : List Node → List Node
| [] => []
| c :: cs => c :: Node.descendants c ++ Node.descList cs

end

/-- Tag-name test; text nodes match no tag name. -/
def Node.isElem (n : Node) (name : String) : Bool :=
  match n with
  | .elem t _ _ => t == name
  | .text _ => false

/-- Concatenation of the stripped text descendants of a node: models
bs4 get_text(strip=True), which strips each contained string and joins
them. -/
def Node.getTextStrip (n : Node) : String :=
  String.join ((Node.descendants n).map (fun m =>
    match m with
    | .text s => pyStrip s
    | .elem _ _ _ => ""))

/-- Predicate for soup.find_all(p) / soup.find(p): all matching
descendants of the document root, in document order. -/
def findAll (root : Node) (p : Node → Bool) : List Node :=
  (Node.descendants root).filter p

/-- Model of soup.find(p): the first matching descendant, if any. -/
def find1 (root : Node) (p : Node → Bool) : Option Node :=
  (findAll root p).head?

/-- Predicate for find("meta", property=v). -/
def pMetaProp (v : String) (n : Node) : Bool :=
  n.isElem "meta" && n.attr "property" == some v

/-- Predicate for find("meta", attrs=(name=v)). -/
def pMetaName (v : String) (n : Node) : Bool :=
  n.isElem "meta" && n.attr "name" == some v

/-- Predicate for find(t): match on tag name alone. -/
def pTag (t : String) (n : Node) : Bool :=
  n.isElem t

/-- Predicate for find("a", href=True): an anchor carrying an href
attribute (bs4 href=True tests attribute presence). -/
def pAnchorHref (n : Node) : Bool :=
  n.isElem "a" && (n.attr "href").isSome

/-- Predicate for find(class_=c): bs4 matches when c is one of the
whitespace-separated classes of the tag. -/
def pClass (c : String) (n : Node) : Bool :=
  match n.attr "class" with
  | some v => (pySplit v " ").contains c
  | none => false

/-- Truthiness of tag.get("content") after a successful find: the
attribute is present and non-empty.  Models the Python test
(tag and tag.get(attr)). -/
def contentTruthy (o : Option Node) : Bool :=
  match o with
  | some m => ((m.attr "content").getD "") != ""
  | none => false

/-- The content attribute of a found tag, empty string when absent. -/
def contentOf (o : Option Node) : String :=
  match o with
  | some m => (m.attr "content").getD ""
  | none => ""

/-- Split a string at the first occurrence of a separator, returning
the part before it and the rest (empty when the separator is absent).
Helper for the urlparse model. -/
def splitOnceAt (s sep : String) : String × String :=
  match pySplit s sep with
  | [] => (s, "")
  | [x] => (x, "")
  | x :: rest => (x, pyIntercalate sep rest)

/-- Substring test, modelling the Python expression (pat in s) for a
non-empty pattern: splitting on the pattern yields more than one piece
exactly when the pattern occurs. -/
def containsStr (s pat : String) : Bool :=
  (pySplit s pat).length != 1

/-- Result of urllib.parse.urlparse restricted to the components the
program reads. -/
structure ParsedUrl where
  scheme : String
  netloc : String
  path : String
  query : String
  fragment : String
deriving DecidableEq, Repr

/-- Split an authority-plus-path suffix into the netloc (up to the
first slash) and the path (from that slash on). -/
def netlocPathSplit (s : String) : String × String :=
  let nl := s.data.takeWhile (fun c => c != '/')
  (String.mk nl, String.mk (s.data.drop nl.length))

/-- Model of urllib.parse.urlparse for the http(s)-style URLs and
relative references the program handles: the fragment is everything
after the first hash, the query everything after the first question
mark before it, a netloc follows a double slash (after a scheme or at
the start), and the path is the remainder. -/
def urlparse (url : String) : ParsedUrl :=
  let fr := splitOnceAt url "#"
  let qu := splitOnceAt fr.1 "?"
  if pyStartsWith qu.1 "//" then
    let np := netlocPathSplit (String.mk (qu.1.data.drop 2))
    ⟨"", np.1, np.2, qu.2, fr.2⟩
  else
    match pySplit qu.1 "://" with
    | [] => ⟨"", "", qu.1, qu.2, fr.2⟩
    | [_] => ⟨"", "", qu.1, qu.2, fr.2⟩
    | sch :: rest =>
      let np := netlocPathSplit (pyIntercalate "://" rest)
      ⟨sch, np.1, np.2, qu.2, fr.2⟩

/-- Portion of a path up to and including its last slash, a root slash
when the path has none: the RFC 3986 merge base used by urljoin for
relative references against a URL with an authority. -/
def dirSlice (p : String) : String :=
  let keep := (p.data.reverse.dropWhile (fun c => c != '/')).reverse
  if keep.isEmpty then "/" else String.mk keep

/-- Model of urllib.parse.urljoin for the reference shapes the program
produces: an empty reference yields the base, an absolute URL (with a
scheme) is returned unchanged, a protocol-relative reference inherits
the base scheme, a root-relative reference inherits scheme and host,
and any other reference is resolved against the directory of the base
path. -/
def urljoin (base url : String) : String :=
  if url == "" then base
  else if (pySplit url "://").length != 1 then url
  else
    let b := urlparse base
    if pyStartsWith url "//" then b.scheme ++ ":" ++ url
    else if pyStartsWith url "/" then b.scheme ++ "://" ++ b.netloc ++ url
    else b.scheme ++ "://" ++ b.netloc ++ dirSlice b.path ++ url

/-- Record built by extract_article_metadata, field for field. -/
structure ArticleRecord where
  title : String
  link : String
  publication_time : String
  author : String
  image_url : String
  summary : String
deriving DecidableEq, Repr

/-- Title extraction of extract_article_metadata: meta og:title content
when truthy (stripped), falling back, when that leaves title unset or
empty, to the text of the title element, else the fixed sentinel.  The
Python test (if not title) identifies None with the empty string, so
the unset state is encoded as the empty string. -/
def titleOf (doc : Node) : String :=
  let og_title := find1 doc (pMetaProp "og:title")
  let t0 := if contentTruthy og_title then pyStrip (contentOf og_title) else ""
  if t0 == "" then
    match find1 doc (pTag "title") with
    | some t => t.getTextStrip
    | none => "Tidak ada judul"
  else t0

/-- Summary extraction: meta description content, else meta
og:description content, else the first paragraph text, else the fixed
sentinel. -/
def summaryOf (doc : Node) : String :=
  let meta_desc := find1 doc (pMetaName "description")
  let og_desc := find1 doc (pMetaProp "og:description")
  if contentTruthy meta_desc then pyStrip (contentOf meta_desc)
  else if contentTruthy og_desc then pyStrip (contentOf og_desc)
  else
    match find1 doc (pTag "p") with
    | some p => p.getTextStrip
    | none => "Tidak ada ringkasan"

/-- Author extraction: meta author content, else meta article:author
content, else the first element with class read__author or, failing
that, class author (the Python or of two finds), else the fixed
sentinel. -/
def authorOf (doc : Node) : String :=
  let meta_author := find1 doc (pMetaName "author")
  let art_author := find1 doc (pMetaProp "article:author")
  if contentTruthy meta_author then pyStrip (contentOf meta_author)
  else if contentTruthy art_author then pyStrip (contentOf art_author)
  else
    match (find1 doc (pClass "read__author")).orElse
        (fun _ => find1 doc (pClass "author")) with
    | some a => a.getTextStrip
    | none => "Tidak diketahui"

/-- Publication-time extraction: meta article:published_time content,
else the datetime attribute of the first time element when truthy,
else that element's text, else the fixed sentinel. -/
def publicationTimeOf (doc : Node) : String :=
  let meta_time := find1 doc (pMetaProp "article:published_time")
  if contentTruthy meta_time then pyStrip (contentOf meta_time)
  else
    match find1 doc (pTag "time") with
    | some t =>
      if (t.attr "datetime").getD "" != "" then pyStrip ((t.attr "datetime").getD "")
      else t.getTextStrip
    | none => "Tidak ada waktu"

/-- Image extraction: meta og:image content, else the src of the first
img element resolved against the article URL when truthy, else the
fixed sentinel. -/
def imageUrlOf (doc : Node) (article_url : String) : String :=
  let og_image := find1 doc (pMetaProp "og:image")
  if contentTruthy og_image then pyStrip (contentOf og_image)
  else
    match find1 doc (pTag "img") with
    | some img =>
      if (img.attr "src").getD "" != "" then
        urljoin article_url ((img.attr "src").getD "")
      else "Tidak ada gambar"
    | none => "Tidak ada gambar"

/-- Model of extract_article_metadata: the soup argument is the result
of get_soup on the article URL (none on fetch or parse failure, which
triggers the early None return); otherwise the record is assembled
from the per-field fallback chains, with link set to the input URL
verbatim. -/
def extract_article_metadata (soup : Option Node) (article_url : String) :
    Option ArticleRecord :=
  match soup with
  | none => none
  | some doc => some {
      title := titleOf doc
      link := article_url
      publication_time := publicationTimeOf doc
      author := authorOf doc
      image_url := imageUrlOf doc article_url
      summary := summaryOf doc }

/-- Target root URL of the scraper. -/
def BASE_URL : String := "https://www.kompas.com/"

/-- Set insertion: links.add(href) on a Python set, modelled on the
contents-in-insertion-order list. -/
def setAdd (s : List String) (x : String) : List String :=
  if s.contains x then s else s ++ [x]

/-- Structural pass of collect_article_links_from_home: for every
article element, the first contained anchor with an href, resolved
against BASE_URL, is added to the link set.  No domain check is
applied in this pass. -/
def structuralPass (doc : Node) (links : List String) : List String :=
  (findAll doc (fun n => n.isElem "article")).foldl
    (fun acc art =>
      match find1 art pAnchorHref with
      | some a => setAdd acc (urljoin BASE_URL ((a.attr "href").getD ""))
      | none => acc)
    links

/-- Path markers of the heuristic pass, in source order. -/
def ARTICLE_MARKERS : List String :=
  ["/read/", "/travel/", "/sains/", "/internasional/", "/tekno/", "/health/", "/edu/"]

/-- Heuristic pass, one anchor: skip an empty href, make the URL
absolute when it has no netloc (the source reassigns href to the
joined URL and reparses it, so that after the conditional block the
parsed value is the parse of the current href in either branch), then,
when the netloc contains kompas.com as a substring, accept the href if
the path contains a marker or the anchor text is longer than 30
characters. -/
def heuristicStep (links : List String) (a : Node) : List String :=
  let href0 := (a.attr "href").getD ""
  if href0 == "" then links
  else
    let href := if (urlparse href0).netloc == "" then urljoin BASE_URL href0 else href0
    let parsed := urlparse href
    if containsStr parsed.netloc "kompas.com" then
      if ARTICLE_MARKERS.any (fun m => containsStr parsed.path m) then
        setAdd links href
      else if (Node.getTextStrip a).length > 30 then setAdd links href
      else links
    else links

/-- Heuristic pass over all anchors with an href, in document order. -/
def heuristicPass (doc : Node) (links : List String) : List String :=
  (findAll doc pAnchorHref).foldl heuristicStep links

/-- Contents of the links set after both passes, in insertion order.
The Python set does not expose this order when iterated. -/
def collectSet (doc : Node) : List String :=
  heuristicPass doc (structuralPass doc [])

/-- Fragment stripping, modelling l.split(hash)[0]. -/
def stripFragment (l : String) : String :=
  ((pySplit l "#").headD l)

/-- Order-preserving deduplication keeping the first occurrence of
each element, modelling list(dict.fromkeys(cleaned)); the accumulator
holds the keys already seen. -/
def dedupKeepFirstAux (seen : List String) : List String → List String
| [] => []
| x :: xs =>
  if seen.contains x then dedupKeepFirstAux seen xs
  else x :: dedupKeepFirstAux (x :: seen) xs

/-- Order-preserving deduplication keeping first occurrences. -/
def dedupKeepFirst (l : List String) : List String :=
  dedupKeepFirstAux [] l

/-- Model of collect_article_links_from_home.  The soup argument is
get_soup(BASE_URL) (none on failure, giving the early empty return);
setIter is the unspecified iteration order of the Python set of links,
applied to the set contents before fragment stripping and ordered
deduplication. -/
def collect_article_links_from_home (soup : Option Node)
    (setIter : List String → List String) : List String :=
  match soup with
  | none => []
  | some doc =>
    let links := setIter (collectSet doc)
    let cleaned := links.map stripFragment
    dedupKeepFirst cleaned

/-- Article bound of the driver. -/
def MAX_ARTICLES : Nat := 50

/-- Driver loop of main over the candidate links: stop at
MAX_ARTICLES collected records, skip links whose host does not contain
kompas.com, otherwise fetch and extract; the counter advances only
when a record is produced.  The second component counts extraction
attempts (page fetches), which the source performs one per
non-skipped link. -/
def mainLoop (fetch : String → Option Node) :
    List String → Nat → List ArticleRecord × Nat
| [], _ => ([], 0)
| link :: rest, count =>
  if MAX_ARTICLES ≤ count then ([], 0)
  else if !(containsStr (urlparse link).netloc "kompas.com") then
    mainLoop fetch rest count
  else
    match extract_article_metadata (fetch link) link with
    | some meta =>
      let r := mainLoop fetch rest (count + 1)
      (meta :: r.1, r.2 + 1)
    | none =>
      let r := mainLoop fetch rest count
      (r.1, r.2 + 1)

/-- Records collected and fetch attempts made by main for a given
candidate list, starting from a zero counter. -/
def runDriver (fetch : String → Option Node) (article_links : List String) :
    List ArticleRecord × Nat :=
  mainLoop fetch article_links 0

/-! Concrete documents used to exercise the model. -/

/-- Article page with none of the recognized metadata sources. -/
def noSignalDoc : Node :=
  .elem "html" [] [.elem "body" [] [.elem "div" [] [.text "halo"]]]

/-- Homepage with two article containers, each holding one relative
article link, in document order read-a then read-b. -/
def homeDocAB : Node :=
  .elem "html" [] [
    .elem "body" [] [
      .elem "article" [] [.elem "a" [("href", "/read/a")] [.text "satu"]],
      .elem "article" [] [.elem "a" [("href", "/read/b")] [.text "dua"]]]]

/-- Article page whose description meta content is a single blank and
whose time element has neither a datetime attribute nor text. -/
def wsDoc : Node :=
  .elem "html" [] [
    .elem "head" [] [.elem "meta" [("name", "description"), ("content", " ")] []],
    .elem "body" [] [.elem "time" [] []]]

/-- Homepage whose single article container links to a host outside
the target domain. -/
def evilDoc : Node :=
  .elem "html" [] [
    .elem "body" [] [
      .elem "article" [] [.elem "a" [("href", "https://evil.com/page")] [.text "x"]]]]

/-- Homepage with one anchor to a host that merely contains kompas.com
as a substring. -/
def doc9 : Node :=
  .elem "html" [] [
    .elem "body" [] [
      .elem "a" [("href", "https://kompas.com.example.net/read/x")] [.text "t"]]]

/-- Minimal article page: parses fine, carries no metadata. -/
def tinyDoc : Node := .elem "html" [] []

/-- Candidate list larger than the article bound. -/
def linksBad : List String := List.replicate 51 "http://kompas.com/a"

/-- Candidate list whose first link will fail to fetch, followed by
exactly MAX_ARTICLES fetchable links. -/
def links10 : List String :=
  "http://kompas.com/bad" :: List.replicate 50 "http://kompas.com/a"

/-- Fetch behavior for links10: the bad link fails, the rest parse. -/
def fetch10 : String → Option Node :=
  fun u => if u == "http://kompas.com/bad" then none else some tinyDoc

/-- Article page carrying the primary source of every field together
with a competing secondary source. -/
def priDoc : Node :=
  .elem "html" [] [
    .elem "head" [] [
      .elem "meta" [("property", "og:title"), ("content", "Title A")] [],
      .elem "title" [] [.text "Title B"],
      .elem "meta" [("name", "description"), ("content", "Desc A")] [],
      .elem "meta" [("property", "og:description"), ("content", "Desc B")] [],
      .elem "meta" [("name", "author"), ("content", "Auth A")] [],
      .elem "meta" [("property", "article:author"), ("content", "Auth B")] [],
      .elem "meta" [("property", "article:published_time"), ("content", "2024-01-01T00:00:00")] [],
      .elem "meta" [("property", "og:image"), ("content", "https://img.example/a.png")] []],
    .elem "body" [] [
      .elem "time" [("datetime", "2023-05-05")] [.text "lima Mei"],
      .elem "img" [("src", "/img/b.png")] [],
      .elem "p" [] [.text "Paragraf pertama."]]]

/-- Article page missing the primary source of every field but
carrying the secondary one. -/
def secDoc : Node :=
  .elem "html" [] [
    .elem "head" [] [
      .elem "title" [] [.text "Title B"],
      .elem "meta" [("property", "og:description"), ("content", "Desc B")] [],
      .elem "meta" [("property", "article:author"), ("content", "Auth B")] []],
    .elem "body" [] [
      .elem "time" [("datetime", "2023-05-05")] [.text "lima Mei"],
      .elem "img" [("src", "/img/b.png")] []]]

/-! Theorems. -/

/-- C1: on a homepage whose two article links occur in the order
read-a, read-b, the link set contents in insertion (first-seen) order
are read-a, read-b, yet the sequence returned by the collector is
whatever order the Python set iterates in: under the identity
enumeration it is read-a, read-b, while under the reversed enumeration
(an equally legal iteration order of the same set, whose order is
hash-randomized and unspecified) it is read-b, read-a, so the distinct
URL read-b does not appear at the position of its first occurrence.
First-seen order is therefore not preserved by the code, although the
deduplication step itself would preserve the order it is given. -/
theorem collect_order_depends_on_set_iteration :
    collectSet homeDocAB
      = ["https://www.kompas.com/read/a", "https://www.kompas.com/read/b"] ∧
    collect_article_links_from_home (some homeDocAB) (fun l => l)
      = ["https://www.kompas.com/read/a", "https://www.kompas.com/read/b"] ∧
    (List.reverse (collectSet homeDocAB)).Perm (collectSet homeDocAB) ∧
    collect_article_links_from_home (some homeDocAB) List.reverse
      = ["https://www.kompas.com/read/b", "https://www.kompas.com/read/a"] ∧
    ("https://www.kompas.com/read/a" : String) ≠ "https://www.kompas.com/read/b" :=
  ⟨by decide, by decide, List.reverse_perm _, by decide, by decide⟩

/-- C2 counterexample: on a document with zero recognizable signal for
any field the extractor does return a record, but its sentinel strings
are the Indonesian literals of the source, none of which is the
English sentinel named by the claim. -/
theorem extract_sentinels_are_indonesian_cex :
    extract_article_metadata (some noSignalDoc) "https://www.kompas.com/read/x"
      = some { title := "Tidak ada judul", link := "https://www.kompas.com/read/x",
               publication_time := "Tidak ada waktu", author := "Tidak diketahui",
               image_url := "Tidak ada gambar", summary := "Tidak ada ringkasan" } ∧
    ("Tidak ada judul" : String) ≠ "no title" ∧
    ("Tidak ada ringkasan" : String) ≠ "no summary" ∧
    ("Tidak diketahui" : String) ≠ "unknown" ∧
    ("Tidak ada waktu" : String) ≠ "no time" ∧
    ("Tidak ada gambar" : String) ≠ "no image" := by
  exact ⟨by decide, by decide, by decide, by decide, by decide, by decide⟩

/-- C3 counterexample: a homepage whose article container links to an
off-domain host; the structural pass adds the link with no domain
check, so the collector returns a URL whose host is evil.com, which
does not belong to the target domain even under the permissive
substring test used elsewhere in the code. -/
theorem collect_structural_offdomain_cex :
    collect_article_links_from_home (some evilDoc) (fun l => l)
      = ["https://evil.com/page"] ∧
    (urlparse "https://evil.com/page").netloc = "evil.com" ∧
    containsStr "evil.com" "kompas.com" = false := by
  exact ⟨by decide, by decide, by decide⟩

/-- C4 counterexample: a description meta tag whose content is a
single blank passes the truthiness test and is then stripped to the
empty string, and a time element with neither datetime attribute nor
text yields the empty string as well, so the returned record has
empty summary and publication_time fields. -/
theorem extract_empty_field_cex :
    extract_article_metadata (some wsDoc) "https://www.kompas.com/read/y"
      = some { title := "Tidak ada judul", link := "https://www.kompas.com/read/y",
               publication_time := "", author := "Tidak diketahui",
               image_url := "Tidak ada gambar", summary := "" } := by
  decide

/-- C6: the extractor returns none exactly when the fetch or parse of
the page failed (the soup input is none); for every successfully
parsed document it returns a record whose link field is the input page
URL verbatim. -/
theorem extract_none_iff_fetch_failure :
    (∀ url, extract_article_metadata none url = none) ∧
    (∀ doc url, ∃ r, extract_article_metadata (some doc) url = some r ∧ r.link = url) :=
  ⟨fun _ => rfl, fun _ _ => ⟨_, rfl, rfl⟩⟩

/-- C8: when the root page cannot be fetched or parsed, get_soup
yields none and the collector returns the empty sequence, whatever
iteration order the link set would have had. -/
theorem collect_empty_on_root_failure (setIter : List String → List String) :
    collect_article_links_from_home none setIter = [] :=
  rfl

/-- C9: a URL on the unrelated host kompas.com.example.net is accepted
by the heuristic pass, because the domain test only asks whether the
host contains kompas.com as a substring, and the driver filter accepts
and processes the same URL for the same reason. -/
theorem substring_domain_accepts_unrelated_host :
    collect_article_links_from_home (some doc9) (fun l => l)
      = ["https://kompas.com.example.net/read/x"] ∧
    (urlparse "https://kompas.com.example.net/read/x").netloc
      = "kompas.com.example.net" ∧
    containsStr "kompas.com.example.net" "kompas.com" = true ∧
    ("kompas.com.example.net" : String) ≠ "kompas.com" ∧
    (runDriver (fun _ => some tinyDoc)
      ["https://kompas.com.example.net/read/x"]).1.length = 1 := by
  exact ⟨by decide, by decide, by decide, by decide, by decide⟩

/-- Every element of the deduplicated list already occurred in the
input, whatever keys were seen before. -/
theorem mem_dedupKeepFirstAux (l : List String) :
    ∀ (seen : List String) (x : String), x ∈ dedupKeepFirstAux seen l → x ∈ l := by
  induction l with
  | nil =>
    intro seen x h
    simp [dedupKeepFirstAux] at h
  | cons y ys ih =>
    intro seen x h
    simp only [dedupKeepFirstAux] at h
    by_cases hc : seen.contains y = true
    · rw [if_pos hc] at h
      exact List.mem_cons_of_mem _ (ih seen x h)
    · rw [if_neg hc] at h
      rcases List.mem_cons.1 h with h1 | h1
      · exact h1 ▸ List.mem_cons_self _ _
      · exact List.mem_cons_of_mem _ (ih _ x h1)

/-- Membership is preserved backwards through the ordered dedup. -/
theorem mem_of_mem_dedupKeepFirst (l : List String) (x : String)
    (h : x ∈ dedupKeepFirst l) : x ∈ l :=
  mem_dedupKeepFirstAux l [] x h

/-- Set insertion adds nothing but the inserted element. -/
theorem mem_setAdd (s : List String) (x y : String) (h : x ∈ setAdd s y) :
    x ∈ s ∨ x = y := by
  unfold setAdd at h
  by_cases hc : s.contains y = true
  · rw [if_pos hc] at h
    exact Or.inl h
  · rw [if_neg hc] at h
    rcases List.mem_append.1 h with h1 | h1
    · exact Or.inl h1
    · exact Or.inr (List.mem_singleton.1 h1)

/-- Core of the heuristic acceptance test, for an already absolutized
href: a link in the result either was present or is the href itself,
which passed the substring domain test. -/
theorem mem_heuristicCore (links : List String) (a : Node) (href : String)
    (x : String)
    (h : x ∈ (if containsStr (urlparse href).netloc "kompas.com" = true then
        (if (ARTICLE_MARKERS.any fun m => containsStr (urlparse href).path m) = true
          then setAdd links href
          else if a.getTextStrip.length > 30 then setAdd links href else links)
      else links)) :
    x ∈ links ∨ containsStr (urlparse x).netloc "kompas.com" = true := by
  by_cases hg : containsStr (urlparse href).netloc "kompas.com" = true
  · rw [if_pos hg] at h
    by_cases hm : (ARTICLE_MARKERS.any fun m => containsStr (urlparse href).path m) = true
    · rw [if_pos hm] at h
      rcases mem_setAdd _ _ _ h with h1 | h1
      · exact Or.inl h1
      · exact Or.inr (h1 ▸ hg)
    · rw [if_neg hm] at h
      by_cases ht : a.getTextStrip.length > 30
      · rw [if_pos ht] at h
        rcases mem_setAdd _ _ _ h with h1 | h1
        · exact Or.inl h1
        · exact Or.inr (h1 ▸ hg)
      · rw [if_neg ht] at h
        exact Or.inl h
  · rw [if_neg hg] at h
    exact Or.inl h

/-- A link added by one heuristic step either was already present or
passed the substring domain test on its parsed host. -/
theorem mem_heuristicStep (links : List String) (a : Node) (x : String)
    (h : x ∈ heuristicStep links a) :
    x ∈ links ∨ containsStr (urlparse x).netloc "kompas.com" = true := by
  simp only [heuristicStep] at h
  by_cases h0 : (((a.attr "href").getD "") == "") = true
  · rw [if_pos h0] at h
    exact Or.inl h
  · rw [if_neg h0] at h
    by_cases hn : ((urlparse ((a.attr "href").getD "")).netloc == "") = true
    · rw [if_pos hn] at h
      exact mem_heuristicCore _ a _ _ h
    · rw [if_neg hn] at h
      exact mem_heuristicCore _ a _ _ h

/-- Fold form of the previous lemma over any anchor list. -/
theorem mem_foldl_heuristicStep (as : List Node) :
    ∀ (links : List String) (x : String), x ∈ as.foldl heuristicStep links →
      x ∈ links ∨ containsStr (urlparse x).netloc "kompas.com" = true := by
  induction as with
  | nil =>
    intro links x h
    exact Or.inl h
  | cons a as ih =>
    intro links x h
    simp only [List.foldl_cons] at h
    rcases ih _ x h with h1 | h1
    · exact mem_heuristicStep _ _ _ h1
    · exact Or.inr h1

/-- C3 amended: every URL returned by the collector is the
fragment-stripped form of a link that either was added by the
structural pass (which applies no domain check at all) or passed the
heuristic pass's substring domain test on its host; the claim's domain
invariant holds only for the heuristic pass. -/
theorem collect_domain_or_structural (doc : Node)
    (setIter : List String → List String)
    (hperm : (setIter (collectSet doc)).Perm (collectSet doc)) :
    ∀ u ∈ collect_article_links_from_home (some doc) setIter,
      ∃ l, u = stripFragment l ∧
        (l ∈ structuralPass doc [] ∨
          containsStr (urlparse l).netloc "kompas.com" = true) := by
  intro u hu
  simp only [collect_article_links_from_home] at hu
  have hu2 := mem_of_mem_dedupKeepFirst _ _ hu
  rcases List.mem_map.1 hu2 with ⟨l, hl, rfl⟩
  have hl2 : l ∈ collectSet doc := hperm.mem_iff.1 hl
  simp only [collectSet, heuristicPass] at hl2
  rcases mem_foldl_heuristicStep _ _ _ hl2 with h1 | h1
  · exact ⟨l, rfl, Or.inl h1⟩
  · exact ⟨l, rfl, Or.inr h1⟩

/-- C3 witness: the amended statement instantiated on the homepage
with an off-domain article container link. -/
theorem collect_domain_or_structural_witness :
    ∃ l, "https://evil.com/page" = stripFragment l ∧
      (l ∈ structuralPass evilDoc [] ∨
        containsStr (urlparse l).netloc "kompas.com" = true) :=
  collect_domain_or_structural evilDoc (fun l => l) (List.Perm.refl _)
    "https://evil.com/page" (by decide)

/-- C2 amended: on a document with zero recognizable signal for every
field the extractor still returns a record, whose fields are exactly
the fixed sentinel strings of the source: Tidak ada judul (title),
Tidak ada ringkasan (summary), Tidak diketahui (author), Tidak ada
waktu (publication_time), Tidak ada gambar (image_url). -/
theorem extract_sentinel_guarantee (doc : Node) (url : String)
    (h1 : find1 doc (pMetaProp "og:title") = none)
    (h2 : find1 doc (pTag "title") = none)
    (h3 : find1 doc (pMetaName "description") = none)
    (h4 : find1 doc (pMetaProp "og:description") = none)
    (h5 : find1 doc (pTag "p") = none)
    (h6 : find1 doc (pMetaName "author") = none)
    (h7 : find1 doc (pMetaProp "article:author") = none)
    (h8 : find1 doc (pClass "read__author") = none)
    (h9 : find1 doc (pClass "author") = none)
    (h10 : find1 doc (pMetaProp "article:published_time") = none)
    (h11 : find1 doc (pTag "time") = none)
    (h12 : find1 doc (pMetaProp "og:image") = none)
    (h13 : find1 doc (pTag "img") = none) :
    extract_article_metadata (some doc) url
      = some { title := "Tidak ada judul", link := url,
               publication_time := "Tidak ada waktu", author := "Tidak diketahui",
               image_url := "Tidak ada gambar", summary := "Tidak ada ringkasan" } := by
  simp only [extract_article_metadata, titleOf, summaryOf, authorOf,
    publicationTimeOf, imageUrlOf, h1, h2, h3, h4, h5, h6, h7, h8, h9, h10,
    h11, h12, h13]
  simp [contentTruthy, Option.orElse]

/-- C2 witness: the amended sentinel guarantee instantiated on a
concrete document with no recognizable signal. -/
theorem extract_sentinel_guarantee_witness :
    extract_article_metadata (some noSignalDoc) "https://www.kompas.com/read/w"
      = some { title := "Tidak ada judul", link := "https://www.kompas.com/read/w",
               publication_time := "Tidak ada waktu", author := "Tidak diketahui",
               image_url := "Tidak ada gambar", summary := "Tidak ada ringkasan" } :=
  extract_sentinel_guarantee noSignalDoc "https://www.kompas.com/read/w"
    rfl rfl rfl rfl rfl rfl rfl rfl rfl rfl rfl rfl rfl

/-- Appending a non-empty string on the right yields a non-empty
string. -/
theorem str_append_ne_empty (a b : String) (hb : b ≠ "") : a ++ b ≠ "" := by
  obtain ⟨la⟩ := a
  obtain ⟨lb⟩ := b
  intro hc
  apply hb
  have hd : la ++ lb = [] := congrArg String.data hc
  rw [(List.append_eq_nil.mp hd).2]

/-- Joining a non-empty reference never yields the empty string. -/
theorem urljoin_ne_empty (base url : String) (h : url ≠ "") :
    urljoin base url ≠ "" := by
  simp only [urljoin]
  rw [if_neg (fun hc => h (eq_of_beq hc))]
  by_cases h1 : ((pySplit url "://").length != 1) = true
  · rw [if_pos h1]
    exact h
  · rw [if_neg h1]
    by_cases h2 : (pyStartsWith url "//") = true
    · rw [if_pos h2]
      exact str_append_ne_empty _ _ h
    · rw [if_neg h2]
      by_cases h3 : (pyStartsWith url "/") = true
      · rw [if_pos h3]
        exact str_append_ne_empty _ _ h
      · rw [if_neg h3]
        exact str_append_ne_empty _ _ h

/-- C4 amended: each field takes the first source of its chain whose
raw value is non-empty, stripping after that test, so every field of
the returned record is non-empty provided every present source value
strips to a non-empty string (vacuously including the pure-sentinel
case); the record is always returned and its link equals the input
URL.  Without that proviso the guarantee fails: a present but
whitespace-only source is stripped to the empty string, as the
counterexample shows for summary and publication_time. -/
theorem extract_fields_nonempty_of_sources_nonblank (doc : Node) (url : String)
    (ht1 : contentTruthy (find1 doc (pMetaProp "og:title")) = true →
      pyStrip (contentOf (find1 doc (pMetaProp "og:title"))) ≠ "")
    (ht2 : ∀ t, find1 doc (pTag "title") = some t → t.getTextStrip ≠ "")
    (hs1 : contentTruthy (find1 doc (pMetaName "description")) = true →
      pyStrip (contentOf (find1 doc (pMetaName "description"))) ≠ "")
    (hs2 : contentTruthy (find1 doc (pMetaProp "og:description")) = true →
      pyStrip (contentOf (find1 doc (pMetaProp "og:description"))) ≠ "")
    (hs3 : ∀ p, find1 doc (pTag "p") = some p → p.getTextStrip ≠ "")
    (ha1 : contentTruthy (find1 doc (pMetaName "author")) = true →
      pyStrip (contentOf (find1 doc (pMetaName "author"))) ≠ "")
    (ha2 : contentTruthy (find1 doc (pMetaProp "article:author")) = true →
      pyStrip (contentOf (find1 doc (pMetaProp "article:author"))) ≠ "")
    (ha3 : ∀ a, (find1 doc (pClass "read__author")).orElse
        (fun _ => find1 doc (pClass "author")) = some a → a.getTextStrip ≠ "")
    (hp1 : contentTruthy (find1 doc (pMetaProp "article:published_time")) = true →
      pyStrip (contentOf (find1 doc (pMetaProp "article:published_time"))) ≠ "")
    (hp2 : ∀ t, find1 doc (pTag "time") = some t →
      (((t.attr "datetime").getD "" ≠ "" →
          pyStrip ((t.attr "datetime").getD "") ≠ "") ∧
       ((t.attr "datetime").getD "" = "" → t.getTextStrip ≠ "")))
    (hi1 : contentTruthy (find1 doc (pMetaProp "og:image")) = true →
      pyStrip (contentOf (find1 doc (pMetaProp "og:image"))) ≠ "") :
    ∃ r, extract_article_metadata (some doc) url = some r ∧
      r.link = url ∧ r.title ≠ "" ∧ r.summary ≠ "" ∧ r.author ≠ "" ∧
      r.publication_time ≠ "" ∧ r.image_url ≠ "" := by
  refine ⟨_, rfl, rfl, ?_, ?_, ?_, ?_, ?_⟩
  · show titleOf doc ≠ ""
    simp only [titleOf]
    by_cases hc : contentTruthy (find1 doc (pMetaProp "og:title")) = true
    · rw [if_pos hc]
      have hne := ht1 hc
      rw [if_neg (fun hb => hne (eq_of_beq hb))]
      exact hne
    · rw [if_neg hc]
      rw [if_pos (by decide : (("" : String) == "") = true)]
      cases hfind : find1 doc (pTag "title") with
      | some t =>
        simp only [hfind]
        exact ht2 t hfind
      | none =>
        simp only [hfind]
        decide
  · show summaryOf doc ≠ ""
    simp only [summaryOf]
    by_cases hc1 : contentTruthy (find1 doc (pMetaName "description")) = true
    · rw [if_pos hc1]
      exact hs1 hc1
    · rw [if_neg hc1]
      by_cases hc2 : contentTruthy (find1 doc (pMetaProp "og:description")) = true
      · rw [if_pos hc2]
        exact hs2 hc2
      · rw [if_neg hc2]
        cases hfind : find1 doc (pTag "p") with
        | some p =>
          simp only [hfind]
          exact hs3 p hfind
        | none =>
          simp only [hfind]
          decide
  · show authorOf doc ≠ ""
    simp only [authorOf]
    by_cases hc1 : contentTruthy (find1 doc (pMetaName "author")) = true
    · rw [if_pos hc1]
      exact ha1 hc1
    · rw [if_neg hc1]
      by_cases hc2 : contentTruthy (find1 doc (pMetaProp "article:author")) = true
      · rw [if_pos hc2]
        exact ha2 hc2
      · rw [if_neg hc2]
        cases hfind : (find1 doc (pClass "read__author")).orElse
            (fun _ => find1 doc (pClass "author")) with
        | some a =>
          simp only [hfind]
          exact ha3 a hfind
        | none =>
          simp only [hfind]
          decide
  · show publicationTimeOf doc ≠ ""
    simp only [publicationTimeOf]
    by_cases hc : contentTruthy (find1 doc (pMetaProp "article:published_time")) = true
    · rw [if_pos hc]
      exact hp1 hc
    · rw [if_neg hc]
      cases hfind : find1 doc (pTag "time") with
      | some t =>
        simp only [hfind]
        by_cases hd : (((t.attr "datetime").getD "") != "") = true
        · rw [if_pos hd]
          exact (hp2 t hfind).1 (by simpa using hd)
        · rw [if_neg hd]
          exact (hp2 t hfind).2 (by simpa using hd)
      | none =>
        simp only [hfind]
        decide
  · show imageUrlOf doc url ≠ ""
    simp only [imageUrlOf]
    by_cases hc : contentTruthy (find1 doc (pMetaProp "og:image")) = true
    · rw [if_pos hc]
      exact hi1 hc
    · rw [if_neg hc]
      cases hfind : find1 doc (pTag "img") with
      | some img =>
        simp only [hfind]
        by_cases hsrc : (((img.attr "src").getD "") != "") = true
        · rw [if_pos hsrc]
          exact urljoin_ne_empty _ _ (by simpa using hsrc)
        · rw [if_neg hsrc]
          decide
      | none =>
        simp only [hfind]
        decide

/-- C4 witness: the amended non-emptiness statement instantiated on a
concrete document where every proviso holds vacuously. -/
theorem extract_fields_nonempty_of_sources_nonblank_witness :
    ∃ r, extract_article_metadata (some noSignalDoc) "https://www.kompas.com/read/z"
        = some r ∧
      r.link = "https://www.kompas.com/read/z" ∧ r.title ≠ "" ∧ r.summary ≠ "" ∧
      r.author ≠ "" ∧ r.publication_time ≠ "" ∧ r.image_url ≠ "" :=
  extract_fields_nonempty_of_sources_nonblank noSignalDoc
    "https://www.kompas.com/read/z"
    (by decide) (fun t ht => Option.noConfusion ht)
    (by decide) (by decide) (fun p hp => Option.noConfusion hp)
    (by decide) (by decide) (fun a ha => Option.noConfusion ha)
    (by decide) (fun t ht => Option.noConfusion ht) (by decide)

/-- Title chain, primary case: a truthy og:title content that strips
to a non-empty value is returned as is. -/
theorem titleOf_primary (doc : Node)
    (h1 : contentTruthy (find1 doc (pMetaProp "og:title")) = true)
    (h2 : pyStrip (contentOf (find1 doc (pMetaProp "og:title"))) ≠ "") :
    titleOf doc = pyStrip (contentOf (find1 doc (pMetaProp "og:title"))) := by
  simp only [titleOf]
  rw [if_pos h1]
  rw [if_neg (fun hb => h2 (eq_of_beq hb))]

/-- Title chain, secondary case: with no og:title meta at all, the
title element text is returned. -/
theorem titleOf_secondary (doc : Node) (t : Node)
    (h1 : find1 doc (pMetaProp "og:title") = none)
    (h2 : find1 doc (pTag "title") = some t) :
    titleOf doc = t.getTextStrip := by
  simp only [titleOf, h1, h2]
  simp [contentTruthy]

/-- Summary chain, primary case. -/
theorem summaryOf_primary (doc : Node)
    (h1 : contentTruthy (find1 doc (pMetaName "description")) = true) :
    summaryOf doc = pyStrip (contentOf (find1 doc (pMetaName "description"))) := by
  simp only [summaryOf]
  rw [if_pos h1]

/-- Summary chain, secondary case: with no description meta at all and
a truthy og:description content, that content is returned. -/
theorem summaryOf_secondary (doc : Node)
    (h1 : find1 doc (pMetaName "description") = none)
    (h2 : contentTruthy (find1 doc (pMetaProp "og:description")) = true) :
    summaryOf doc = pyStrip (contentOf (find1 doc (pMetaProp "og:description"))) := by
  simp only [summaryOf, h1]
  rw [if_neg (by simp [contentTruthy])]
  rw [if_pos h2]

/-- Author chain, primary case. -/
theorem authorOf_primary (doc : Node)
    (h1 : contentTruthy (find1 doc (pMetaName "author")) = true) :
    authorOf doc = pyStrip (contentOf (find1 doc (pMetaName "author"))) := by
  simp only [authorOf]
  rw [if_pos h1]

/-- Author chain, secondary case. -/
theorem authorOf_secondary (doc : Node)
    (h1 : find1 doc (pMetaName "author") = none)
    (h2 : contentTruthy (find1 doc (pMetaProp "article:author")) = true) :
    authorOf doc = pyStrip (contentOf (find1 doc (pMetaProp "article:author"))) := by
  simp only [authorOf, h1]
  rw [if_neg (by simp [contentTruthy])]
  rw [if_pos h2]

/-- Publication-time chain, primary case. -/
theorem publicationTimeOf_primary (doc : Node)
    (h1 : contentTruthy (find1 doc (pMetaProp "article:published_time")) = true) :
    publicationTimeOf doc
      = pyStrip (contentOf (find1 doc (pMetaProp "article:published_time"))) := by
  simp only [publicationTimeOf]
  rw [if_pos h1]

/-- Publication-time chain, secondary case: with no published_time
meta at all and a time element with a truthy datetime attribute, the
stripped attribute is returned. -/
theorem publicationTimeOf_secondary (doc : Node) (t : Node)
    (h1 : find1 doc (pMetaProp "article:published_time") = none)
    (h2 : find1 doc (pTag "time") = some t)
    (h3 : (t.attr "datetime").getD "" ≠ "") :
    publicationTimeOf doc = pyStrip ((t.attr "datetime").getD "") := by
  simp only [publicationTimeOf, h1, h2]
  rw [if_neg (by simp [contentTruthy])]
  rw [if_pos (by simpa using h3)]

/-- Image chain, primary case. -/
theorem imageUrlOf_primary (doc : Node) (url : String)
    (h1 : contentTruthy (find1 doc (pMetaProp "og:image")) = true) :
    imageUrlOf doc url = pyStrip (contentOf (find1 doc (pMetaProp "og:image"))) := by
  simp only [imageUrlOf]
  rw [if_pos h1]

/-- Image chain, secondary case: with no og:image meta at all and an
img element with a truthy src, the src resolved against the article
URL is returned. -/
theorem imageUrlOf_secondary (doc : Node) (url : String) (img : Node)
    (h1 : find1 doc (pMetaProp "og:image") = none)
    (h2 : find1 doc (pTag "img") = some img)
    (h3 : (img.attr "src").getD "" ≠ "") :
    imageUrlOf doc url = urljoin url ((img.attr "src").getD "") := by
  simp only [imageUrlOf, h1, h2]
  rw [if_neg (by simp [contentTruthy])]
  rw [if_pos (by simpa using h3)]

/-- C5: each field's fallback sources are consulted strictly in
priority order: a present primary source (truthy raw value, stripping
to a non-empty string where the code re-tests the result) determines
the field even when the secondary is present too, and when the primary
find fails entirely, the secondary's value is returned rather than a
later fallback or the sentinel. -/
theorem extract_priority_order (doc : Node) (url : String) :
    ((contentTruthy (find1 doc (pMetaProp "og:title")) = true →
        pyStrip (contentOf (find1 doc (pMetaProp "og:title"))) ≠ "" →
        (extract_article_metadata (some doc) url).map ArticleRecord.title
          = some (pyStrip (contentOf (find1 doc (pMetaProp "og:title"))))) ∧
      (find1 doc (pMetaProp "og:title") = none →
        ∀ t, find1 doc (pTag "title") = some t →
        (extract_article_metadata (some doc) url).map ArticleRecord.title
          = some t.getTextStrip)) ∧
    ((contentTruthy (find1 doc (pMetaName "description")) = true →
        (extract_article_metadata (some doc) url).map ArticleRecord.summary
          = some (pyStrip (contentOf (find1 doc (pMetaName "description"))))) ∧
      (find1 doc (pMetaName "description") = none →
        contentTruthy (find1 doc (pMetaProp "og:description")) = true →
        (extract_article_metadata (some doc) url).map ArticleRecord.summary
          = some (pyStrip (contentOf (find1 doc (pMetaProp "og:description")))))) ∧
    ((contentTruthy (find1 doc (pMetaName "author")) = true →
        (extract_article_metadata (some doc) url).map ArticleRecord.author
          = some (pyStrip (contentOf (find1 doc (pMetaName "author"))))) ∧
      (find1 doc (pMetaName "author") = none →
        contentTruthy (find1 doc (pMetaProp "article:author")) = true →
        (extract_article_metadata (some doc) url).map ArticleRecord.author
          = some (pyStrip (contentOf (find1 doc (pMetaProp "article:author")))))) ∧
    ((contentTruthy (find1 doc (pMetaProp "article:published_time")) = true →
        (extract_article_metadata (some doc) url).map ArticleRecord.publication_time
          = some (pyStrip (contentOf
              (find1 doc (pMetaProp "article:published_time"))))) ∧
      (find1 doc (pMetaProp "article:published_time") = none →
        ∀ t, find1 doc (pTag "time") = some t →
        (t.attr "datetime").getD "" ≠ "" →
        (extract_article_metadata (some doc) url).map ArticleRecord.publication_time
          = some (pyStrip ((t.attr "datetime").getD "")))) ∧
    ((contentTruthy (find1 doc (pMetaProp "og:image")) = true →
        (extract_article_metadata (some doc) url).map ArticleRecord.image_url
          = some (pyStrip (contentOf (find1 doc (pMetaProp "og:image"))))) ∧
      (find1 doc (pMetaProp "og:image") = none →
        ∀ img, find1 doc (pTag "img") = some img →
        (img.attr "src").getD "" ≠ "" →
        (extract_article_metadata (some doc) url).map ArticleRecord.image_url
          = some (urljoin url ((img.attr "src").getD "")))) := by
  refine ⟨⟨?_, ?_⟩, ⟨?_, ?_⟩, ⟨?_, ?_⟩, ⟨?_, ?_⟩, ?_, ?_⟩
  · intro h1 h2
    exact congrArg some (titleOf_primary doc h1 h2)
  · intro h1 t h2
    exact congrArg some (titleOf_secondary doc t h1 h2)
  · intro h1
    exact congrArg some (summaryOf_primary doc h1)
  · intro h1 h2
    exact congrArg some (summaryOf_secondary doc h1 h2)
  · intro h1
    exact congrArg some (authorOf_primary doc h1)
  · intro h1 h2
    exact congrArg some (authorOf_secondary doc h1 h2)
  · intro h1
    exact congrArg some (publicationTimeOf_primary doc h1)
  · intro h1 t h2 h3
    exact congrArg some (publicationTimeOf_secondary doc t h1 h2 h3)
  · intro h1
    exact congrArg some (imageUrlOf_primary doc url h1)
  · intro h1 img h2 h3
    exact congrArg some (imageUrlOf_secondary doc url img h1 h2 h3)

/-- C5 witness: both cases of every field instantiated on concrete
documents: priDoc carries every primary source next to a competing
secondary (the primary wins, in particular og:title Title A beats the
title element Title B), secDoc lacks every primary but carries the
secondary (the secondary wins over later fallbacks and sentinels). -/
theorem extract_priority_order_witness :
    ((extract_article_metadata (some priDoc) "https://www.kompas.com/read/p").map
        ArticleRecord.title = some "Title A" ∧
      (extract_article_metadata (some secDoc) "https://www.kompas.com/read/s").map
        ArticleRecord.title = some "Title B") ∧
    ((extract_article_metadata (some priDoc) "https://www.kompas.com/read/p").map
        ArticleRecord.summary = some "Desc A" ∧
      (extract_article_metadata (some secDoc) "https://www.kompas.com/read/s").map
        ArticleRecord.summary = some "Desc B") ∧
    ((extract_article_metadata (some priDoc) "https://www.kompas.com/read/p").map
        ArticleRecord.author = some "Auth A" ∧
      (extract_article_metadata (some secDoc) "https://www.kompas.com/read/s").map
        ArticleRecord.author = some "Auth B") ∧
    ((extract_article_metadata (some priDoc) "https://www.kompas.com/read/p").map
        ArticleRecord.publication_time = some "2024-01-01T00:00:00" ∧
      (extract_article_metadata (some secDoc) "https://www.kompas.com/read/s").map
        ArticleRecord.publication_time = some "2023-05-05") ∧
    ((extract_article_metadata (some priDoc) "https://www.kompas.com/read/p").map
        ArticleRecord.image_url = some "https://img.example/a.png" ∧
      (extract_article_metadata (some secDoc) "https://www.kompas.com/read/s").map
        ArticleRecord.image_url = some "https://www.kompas.com/img/b.png") :=
  ⟨⟨(extract_priority_order priDoc "https://www.kompas.com/read/p").1.1
      (by decide) (by decide),
    (extract_priority_order secDoc "https://www.kompas.com/read/s").1.2
      rfl (.elem "title" [] [.text "Title B"]) rfl⟩,
   ⟨(extract_priority_order priDoc "https://www.kompas.com/read/p").2.1.1
      (by decide),
    (extract_priority_order secDoc "https://www.kompas.com/read/s").2.1.2
      rfl (by decide)⟩,
   ⟨(extract_priority_order priDoc "https://www.kompas.com/read/p").2.2.1.1
      (by decide),
    (extract_priority_order secDoc "https://www.kompas.com/read/s").2.2.1.2
      rfl (by decide)⟩,
   ⟨(extract_priority_order priDoc "https://www.kompas.com/read/p").2.2.2.1.1
      (by decide),
    (extract_priority_order secDoc "https://www.kompas.com/read/s").2.2.2.1.2
      rfl (.elem "time" [("datetime", "2023-05-05")] [.text "lima Mei"]) rfl
      (by decide)⟩,
   ⟨(extract_priority_order priDoc "https://www.kompas.com/read/p").2.2.2.2.1
      (by decide),
    (extract_priority_order secDoc "https://www.kompas.com/read/s").2.2.2.2.2
      rfl (.elem "img" [("src", "/img/b.png")] []) rfl (by decide)⟩⟩

/-- Collected records never exceed the remaining budget. -/
theorem mainLoop_fst_len_le (fetch : String → Option Node) (links : List String) :
    ∀ count : Nat, (mainLoop fetch links count).1.length ≤ MAX_ARTICLES - count := by
  induction links with
  | nil =>
    intro count
    simp [mainLoop]
  | cons l rest ih =>
    intro count
    simp only [mainLoop]
    by_cases hc : MAX_ARTICLES ≤ count
    · rw [if_pos hc]
      simp
    · rw [if_neg hc]
      by_cases hd : (!containsStr (urlparse l).netloc "kompas.com") = true
      · rw [if_pos hd]
        exact ih count
      · rw [if_neg hd]
        cases hext : extract_article_metadata (fetch l) l with
        | some meta =>
          simp only [hext, List.length_cons]
          have hstep := ih (count + 1)
          simp only [MAX_ARTICLES] at hstep hc ⊢
          omega
        | none =>
          simp only [hext]
          exact ih count

/-- When every link passes the domain filter and fetches, the number
of records is the candidate count clipped by the remaining budget. -/
theorem mainLoop_fst_len_of_good (fetch : String → Option Node) :
    ∀ (links : List String) (count : Nat),
      (∀ l ∈ links, containsStr (urlparse l).netloc "kompas.com" = true ∧
        (fetch l).isSome = true) →
      (mainLoop fetch links count).1.length
        = min links.length (MAX_ARTICLES - count) := by
  intro links
  induction links with
  | nil =>
    intro count h
    simp [mainLoop]
  | cons l rest ih =>
    intro count hgood
    have hl := hgood l (List.mem_cons_self l rest)
    have hrest := fun x hx => hgood x (List.mem_cons_of_mem l hx)
    simp only [mainLoop]
    by_cases hc : MAX_ARTICLES ≤ count
    · rw [if_pos hc]
      simp only [List.length_nil, List.length_cons, MAX_ARTICLES] at hc ⊢
      omega
    · rw [if_neg hc]
      rw [if_neg (by simp [hl.1])]
      obtain ⟨d, hd⟩ := Option.isSome_iff_exists.mp hl.2
      rw [hd]
      simp only [extract_article_metadata, List.length_cons]
      rw [ih (count + 1) hrest]
      simp only [List.length_cons, MAX_ARTICLES] at hc ⊢
      omega

/-- C7 amended: the driver collects at most MAX_ARTICLES records, and
exactly MAX_ARTICLES of them when more candidates than the maximum are
discovered and each candidate passes the domain filter and extracts
successfully; it then stops.  Without those provisos the count can
fall short, as the counterexample shows. -/
theorem driver_bound_exact_when_all_good (fetch : String → Option Node)
    (links : List String)
    (hgood : ∀ l ∈ links, containsStr (urlparse l).netloc "kompas.com" = true ∧
      (fetch l).isSome = true)
    (hlen : MAX_ARTICLES < links.length) :
    (runDriver fetch links).1.length = MAX_ARTICLES := by
  unfold runDriver
  rw [mainLoop_fst_len_of_good fetch links 0 hgood]
  simp only [MAX_ARTICLES] at hlen ⊢
  omega

/-- C7 witness: the amended bound statement instantiated on 51 links
that all pass the filter and all fetch. -/
theorem driver_bound_exact_when_all_good_witness :
    (runDriver (fun _ => some tinyDoc)
      (List.replicate 51 "http://kompas.com/a")).1.length = MAX_ARTICLES :=
  driver_bound_exact_when_all_good (fun _ => some tinyDoc) _
    (by
      intro l hl
      rw [List.eq_of_mem_replicate hl]
      exact ⟨by decide, rfl⟩)
    (by decide)

/-- C10: the budget counter advances only when extraction returns a
record, so collected records never exceed MAX_ARTICLES for any run,
while a run whose first candidate fails to fetch makes 51 fetch
attempts, strictly more than MAX_ARTICLES, and still collects exactly
MAX_ARTICLES records. -/
theorem driver_budget_counts_only_records :
    (∀ (fetch : String → Option Node) (links : List String),
      (runDriver fetch links).1.length ≤ MAX_ARTICLES) ∧
    (runDriver fetch10 links10).2 = 51 ∧
    MAX_ARTICLES < (runDriver fetch10 links10).2 ∧
    (runDriver fetch10 links10).1.length = MAX_ARTICLES := by
  refine ⟨fun fetch links => ?_, by decide, by decide, by decide⟩
  have h := mainLoop_fst_len_le fetch links 0
  simpa [runDriver] using h

/-- C7 counterexample: with 51 candidate links, all on an accepted
host but none fetchable, the driver collects no record at all (and
makes 51 fetch attempts), so it does not process exactly MAX_ARTICLES
articles even though more candidates than the maximum were
discovered. -/
theorem driver_bound_not_exact_cex :
    linksBad.length = 51 ∧ MAX_ARTICLES = 50 ∧
    (runDriver (fun _ => none) linksBad).1.length = 0 ∧
    (runDriver (fun _ => none) linksBad).2 = 51 := by
  exact ⟨by decide, by decide, by decide, by decide⟩

end Kompas

